import Mathlib

/-!
Shallow embedding of the query builder and report accumulator of
`googleanalytics/query.py`.

Python list objects are mutable and shared by reference, and `clone` copies the
`raw` dictionary with a shallow `copy`, so the metric and dimension lists are
modelled as addresses into an explicit list store.  Dictionaries are modelled as
insertion-ordered association lists, mirroring Python dict semantics
(`update` replaces in place or appends, `setdefault` inserts only when the key
is absent).  Fallible code returns `Except Err`, where `Err` mirrors the Python
exception classes that can be raised.  The pagination driver `execute` is
modelled with explicit fuel; `none` means the recursion did not finish within
the given fuel.
-/

deriving instance DecidableEq for Except

namespace GoogleAnalytics

/-- Python exception values raised by the embedded code. -/
inductive Err where
  | valueError (msg : String)
  | indexError (msg : String)
  | nameError (msg : String)
  | lookupError (msg : String)
  | attributeError (msg : String)
  | notImplementedError
deriving DecidableEq

/-- A value held in the `raw` parameter dictionary: a string, a number, or a
reference to a mutable Python list living in the list store. -/
inductive RVal where
  | s (v : String)
  | n (v : Nat)
  | r (addr : Nat)
deriving DecidableEq

/-- Insertion-ordered string-keyed dictionary, as Python dicts are. -/
abbrev PyDict (β : Type) := List (String × β)

/-- Dictionary lookup (`d[k]` / `d.get(k)`). -/
def aget {β : Type} : PyDict β → String → Option β
  | [], _ => none
  | (k2, v) :: rest, k => if k2 == k then some v else aget rest k

/-- Dictionary assignment `d[k] = v`: replaces the value in place when the key
is present, otherwise appends the new entry at the end. -/
def aset {β : Type} : PyDict β → String → β → PyDict β
  | [], k, v => [(k, v)]
  | (k2, v2) :: rest, k, v =>
      if k2 == k then (k, v) :: rest else (k2, v2) :: aset rest k v

/-- Dictionary `d.update(kvs)`. -/
def aupdate {β : Type} (d : PyDict β) (kvs : List (String × β)) : PyDict β :=
  kvs.foldl (fun acc p => aset acc p.1 p.2) d

/-- The keys of a dictionary, in insertion order. -/
def akeys {β : Type} (d : PyDict β) : List String := d.map (fun p => p.1)

/-- The store of mutable Python lists; an `RVal.r` address indexes into it. -/
structure Store where
  lists : List (List String)
deriving DecidableEq

/-- Dereference a list address. -/
def Store.get (s : Store) (a : Nat) : List String := s.lists.getD a []

/-- Overwrite the list at an address (in-place mutation of a Python list). -/
def Store.set (s : Store) (a : Nat) (l : List String) : Store :=
  ⟨s.lists.set a l⟩

/-- Create a fresh Python list object holding `l`; returns its address. -/
def Store.alloc (s : Store) (l : List String) : Store × Nat :=
  (⟨s.lists ++ [l]⟩, s.lists.length)

/-- The raw request-parameter dictionary of a query. -/
abbrev Dict := PyDict RVal

/-- The builder-only metadata dictionary (`meta`); it only ever holds the
numeric row limit under the key `limit`. -/
abbrev Meta := PyDict Nat

/-- The owning profile: its identifier and the ordered column catalog of the
owning account, each column identified by its identifier string. -/
structure Profile where
  id : String
  columns : List String
deriving DecidableEq

/-- A column argument: either an already-resolved column handle or a raw name
(`isinstance(value, account.Column)` distinguishes the two in the source). -/
inductive ColIn where
  | handle (id : String)
  | name (v : String)
deriving DecidableEq

/-- Modelled from the spec: the column-catalog lookup of the external
account collaborator (ColumnResolver, spec section 2): resolves a name to a
canonical column identifier and fails with a lookup error when the name is
absent from the catalog.  Catalog entries are identified with their identifier
strings. -/
def catalogLookup (p : Profile) (v : String) : Except Err String :=
  if v ∈ p.columns then Except.ok v else Except.error (Err.lookupError v)

/-- `Query._normalize_column`: a column handle is returned as is, a name goes
through the catalog of the owning account. -/
def _normalize_column (p : Profile) : ColIn → Except Err String
  | ColIn.handle c => Except.ok c
  | ColIn.name v => catalogLookup p v

/-- `Query._serialize_columns` composed with `_serialize_column`: resolve each
input to its column identifier. -/
def _serialize_columns (p : Profile) (values : List ColIn) : Except Err (List String) :=
  values.mapM (_normalize_column p)

/-- A query-specification value: owning profile, raw parameter dictionary and
metadata dictionary (`Query.__init__` fields). -/
structure Query where
  profile : Profile
  raw : Dict
  meta : Meta
deriving DecidableEq

/-- `self.raw.setdefault(k, [])` for the metric/dimension slots: returns the
address of the existing list when the key is present, otherwise allocates a
fresh empty list and stores a reference to it under the key. -/
def setdefaultRef (s : Store) (d : Dict) (k : String) : Store × Dict × Nat :=
  match aget d k with
  | some (RVal.r a) => (s, d, a)
  | some _ => (s, d, 0)   -- unreachable: these slots always hold list references
  | none =>
      let (s1, a) := Store.alloc s []
      (s1, aset d k (RVal.r a), a)

/-- The mutating tail of `Query._specify`: extend the (possibly shared) metric
and dimension lists in place with the already-serialized identifiers. -/
def specExtend (s : Store) (q : Query) (ms ds : List String) : Store × Query :=
  let (s1, raw1, ma) := setdefaultRef s q.raw "metrics"
  let s2 := Store.set s1 ma (Store.get s1 ma ++ ms)
  let (s3, raw2, da) := setdefaultRef s2 raw1 "dimensions"
  let s4 := Store.set s3 da (Store.get s3 da ++ ds)
  (s4, { q with raw := raw2 })

/-- `Query._specify`: serialize the column arguments, then extend the metric
and dimension lists of `self.raw` in place. -/
def _specify (s : Store) (q : Query) (metrics dimensions : List ColIn) :
    Except Err (Store × Query) := do
  let ms ← _serialize_columns q.profile metrics
  let ds ← _serialize_columns q.profile dimensions
  Except.ok (specExtend s q ms ds)

/-- `Query.__init__`: `raw = {'ids': 'ga:' + profile.id}`, `meta` is a fresh
dictionary updated from the argument, then `_specify(metrics, dimensions)`. -/
def Query.init (s : Store) (p : Profile) (metrics dimensions : List ColIn)
    (meta : Meta) : Except Err (Store × Query) :=
  _specify s { profile := p, raw := [("ids", RVal.s ("ga:" ++ p.id))], meta := meta }
    metrics dimensions

/-- `Query.clone`: `self.__class__(profile=self.profile, meta=self.meta)`
(resolving the empty default column lists never fails) followed by
`query.raw = copy(self.raw)` — a shallow dictionary copy, so the clone shares
the metric and dimension list objects with the receiver. -/
def Query.clone (s : Store) (q : Query) : Store × Query :=
  let p := specExtend s
    { profile := q.profile, raw := [("ids", RVal.s ("ga:" ++ q.profile.id))], meta := q.meta }
    [] []
  (p.1, { profile := q.profile, raw := q.raw, meta := q.meta })

/-- Modelled from the spec: the `utils.immutable` decorator (absent from the
sources; spec section 9) clones the receiver, runs the wrapped method against
the clone, and returns the clone. -/
def immutable (s : Store) (q : Query)
    (method : Store → Query → Except Err (Store × Query)) :
    Except Err (Store × Query) :=
  let p := Query.clone s q
  method p.1 p.2

/-- `Query.specify` (immutable chain operation). -/
def Query.specify (s : Store) (q : Query) (metrics dimensions : List ColIn) :
    Except Err (Store × Query) :=
  immutable s q (fun s c => _specify s c metrics dimensions)

/-- `Query.sort`: an immutable no-op placeholder. -/
def Query.sort (s : Store) (q : Query) : Except Err (Store × Query) :=
  immutable s q (fun s c => Except.ok (s, c))

/-- `Query.filter`: an immutable no-op placeholder. -/
def Query.filter (s : Store) (q : Query) : Except Err (Store × Query) :=
  immutable s q (fun s c => Except.ok (s, c))

/-- `CoreQuery.PRECISION_LEVELS`. -/
def PRECISION_LEVELS : List String := ["FASTER", "DEFAULT", "HIGH_PRECISION"]

/-- `CoreQuery.GRANULARITY_LEVELS`. -/
def GRANULARITY_LEVELS : List String := ["year", "month", "week", "day", "hour"]

/-- `CoreQuery.GRANULARITY_DIMENSIONS`. -/
def GRANULARITY_DIMENSIONS : List String :=
  ["ga:year", "ga:yearMonth", "ga:yearWeek", "ga:date", "ga:dateHour"]

/-- Python tuple indexing `t[i]`: supports negative indices and raises
`IndexError: tuple index out of range` when out of bounds. -/
def pyTupleGet (l : List String) (i : Int) : Except Err String :=
  let j : Int := if i < 0 then i + l.length else i
  if 0 ≤ j ∧ j < (l.length : Int) then Except.ok (l.getD j.toNat "")
  else Except.error (Err.indexError "tuple index out of range")

/-- The `precision` argument of `range`: an index or a token name. -/
inductive PrecArg where
  | int (i : Int)
  | str (v : String)
deriving DecidableEq

/-- The `granularity` argument of `range` when not `None`. -/
inductive GranArg where
  | int (i : Int)
  | str (v : String)
deriving DecidableEq

/-- Python truthiness of a granularity value (`if granularity:`): the integer
`0` and the empty string are falsy. -/
def granTruthy : GranArg → Bool
  | GranArg.int i => i != 0
  | GranArg.str v => v != ""

/-- Modelled from the spec: the external date-range utility `utils.daterange`
(absent from the sources; spec section 6) resolves `(start, stop, months,
days)` to a pair of date strings; its calendar arithmetic is the collaborator
contract, so it is modelled as returning the given endpoints unchanged. -/
def daterange (start : String) (stop : Option String) (_months _days : Nat) :
    String × String :=
  (start, stop.getD start)

/-- `CoreQuery.range`: update the date parameters, validate the sampling
precision, store `samplingLevel`, and, for a truthy granularity, insert the
matching synthetic time dimension at the front of the (shared) dimension
list. -/
def Query.range (s : Store) (q : Query) (start : String) (stop : Option String)
    (months days : Nat) (precision : PrecArg) (granularity : Option GranArg) :
    Except Err (Store × Query) :=
  immutable s q (fun s c => do
    let d := daterange start stop months days
    let raw1 := aupdate c.raw [("start_date", RVal.s d.1), ("end_date", RVal.s d.2)]
    let ptok ← match precision with
      | PrecArg.int i => pyTupleGet PRECISION_LEVELS i
      | PrecArg.str t => Except.ok t
    if ptok ∉ PRECISION_LEVELS then
      Except.error (Err.valueError
        ("Granularity should be one of: " ++ String.intercalate ", " PRECISION_LEVELS))
    else
      let raw2 := aset raw1 "samplingLevel" (RVal.s ptok)
      match granularity with
      | none => Except.ok (s, { c with raw := raw2 })
      | some g =>
        if granTruthy g then do
          let gi : Int ← match g with
            | GranArg.int i => Except.ok i
            | GranArg.str t =>
                if t ∈ GRANULARITY_LEVELS then
                  Except.ok (Int.ofNat (GRANULARITY_LEVELS.indexOf t))
                else
                  -- the source builds the message from `options.keys()`, but no
                  -- name `options` is in scope: Python raises a NameError
                  Except.error (Err.nameError "options")
          let dim ← pyTupleGet GRANULARITY_DIMENSIONS gi
          match aget raw2 "dimensions" with
          | some (RVal.r a) =>
              Except.ok (Store.set s a (dim :: Store.get s a), { c with raw := raw2 })
          | _ => Except.error (Err.lookupError "dimensions")
        else Except.ok (s, { c with raw := raw2 }))

/-- `CoreQuery.step`: set the page-size hint `max_results`. -/
def Query.step (s : Store) (q : Query) (maximum : Nat) :
    Except Err (Store × Query) :=
  immutable s q (fun s c =>
    Except.ok (s, { c with raw := aset c.raw "max_results" (RVal.n maximum) }))

/-- `CoreQuery.limit`: SQL-LIMIT-style positional arguments; stores the row
limit in `meta` and mirrors `start_index`/`max_results` into `raw`.  The
source guards with `len(_range) == 2`: exactly two arguments are unpacked as
`start, maximum`; any other number of arguments takes the else branch, which
reads `maximum = _range[0]` (raising an IndexError only when no argument was
given) with `start = 1`. -/
def Query.limit (s : Store) (q : Query) (args : List Nat) :
    Except Err (Store × Query) :=
  immutable s q (fun s c =>
    match args with
    | [st, maximum] =>
        Except.ok (s,
          { c with
            meta := aset c.meta "limit" maximum,
            raw := aupdate c.raw
              [("start_index", RVal.n st), ("max_results", RVal.n maximum)] })
    | [] => Except.error (Err.indexError "tuple index out of range")
    | maximum :: _ =>
        Except.ok (s,
          { c with
            meta := aset c.meta "limit" maximum,
            raw := aupdate c.raw
              [("start_index", RVal.n 1), ("max_results", RVal.n maximum)] }))

/-- `CoreQuery.next`: position a follow-up query at the next page.  With no
explicit (truthy) start, the start index is computed as
`self.raw.get('max_results', 1000) + 1`. -/
def Query.next (s : Store) (q : Query) (start : Option Nat) :
    Except Err (Store × Query) :=
  immutable s q (fun s c =>
    let st :=
      match start with
      | some v =>
          if v != 0 then v
          else (match aget c.raw "max_results" with
                | some (RVal.n m) => m
                | _ => 1000) + 1
      | none =>
          (match aget c.raw "max_results" with
           | some (RVal.n m) => m
           | _ => 1000) + 1
    Except.ok (s, { c with raw := aset c.raw "start_index" (RVal.n st) }))

/-- One raw page returned by the transport: the declared column names, the row
batch, and whether a continuation cursor (`nextLink`) is present. -/
structure Page where
  columnHeaders : List String
  rows : List (List String)
  nextLink : Bool
deriving DecidableEq

/-- The report accumulator (`Report`). -/
structure Report where
  raw : Page
  queries : List Query
  headers : List String
  rows : List (List String)
  is_complete : Bool
deriving DecidableEq

/-- `Report.append`: record the contributing query, concatenate the page rows,
and recompute completeness from the presence of `nextLink`. -/
def Report.append (r : Report) (page : Page) (query : Query) : Report :=
  { r with
    queries := r.queries ++ [query],
    rows := r.rows ++ page.rows,
    is_complete := !page.nextLink }

/-- `Report.__init__`: the headers are the account column catalog filtered (in
catalog order, via the external addressable collaborator) to the column names
declared by the first page; then the first page is appended. -/
def Report.init (raw : Page) (query : Query) : Report :=
  Report.append
    { raw := raw,
      queries := [],
      headers := query.profile.columns.filter (fun c => c ∈ raw.columnHeaders),
      rows := [],
      is_complete := !raw.nextLink }
    raw query

/-- Python `list.index` as used by the addressable header list: the position of
the first matching column identifier, if any. -/
def listIndex : List String → String → Option Nat
  | [], _ => none
  | a :: rest, key =>
      if a == key then some 0 else (listIndex rest key).map (fun i => i + 1)

/-- `Report.__getitem__`: resolve the column name against the headers and
return the column of values across all rows; an absent name raises
`ValueError(key + " not in column headers")`. -/
def Report.getitem (r : Report) (key : String) : Except Err (List String) :=
  match listIndex r.headers key with
  | none => Except.error (Err.valueError (key ++ " not in column headers"))
  | some i =>
      r.rows.mapM (fun row =>
        if i < row.length then Except.ok (row.getD i "")
        else Except.error (Err.indexError "list index out of range"))

/-- `Report.__len__`: the number of accumulated rows. -/
def Report.length (r : Report) : Nat := r.rows.length

/-- `Report.__iter__` raises `NotImplementedError`. -/
def Report.iter (_ : Report) : Except Err Unit :=
  Except.error Err.notImplementedError

/-- The external transport: a serialized request dictionary in, one raw page
out (`service.data().ga().get(**raw).execute()`). -/
abbrev Transport := Dict → Page

/-- Dereference the list stored under `k` in a raw dictionary (`self.raw[k]`
where the slot holds a list reference). -/
def derefList (s : Store) (d : Dict) (k : String) : Except Err (List String) :=
  match aget d k with
  | some (RVal.r a) => Except.ok (Store.get s a)
  | _ => Except.error (Err.lookupError k)

/-- The serialization prefix of `CoreQuery.execute`:
`raw = copy(self.raw)` followed by joining the metric and dimension identifier
lists into comma-separated strings inside the copy only. -/
def serializeReq (s : Store) (q : Query) : Except Err Dict := do
  let ms ← derefList s q.raw "metrics"
  let ds ← derefList s q.raw "dimensions"
  Except.ok (aset (aset q.raw "metrics" (RVal.s (String.intercalate "," ms)))
    "dimensions" (RVal.s (String.intercalate "," ds)))

/-- The first `is_enough` check of `execute`, made before the loop:
`self.meta.get('limit', float('inf')) < 1000`. -/
def initialEnough (q : Query) : Bool :=
  match aget q.meta "limit" with
  | some l => decide (l < 1000)
  | none => false

/-- The in-loop `is_enough` recomputation of `execute`:
`len(report.rows) >= self.meta.get('limit', float('inf'))`. -/
def loopEnough (q : Query) (r : Report) : Bool :=
  match aget q.meta "limit" with
  | some l => decide (l ≤ r.rows.length)
  | none => false

/-- The two control points of `CoreQuery.execute`: entering `execute` on a
query, and the `while not (is_enough or report.is_complete)` loop with the
accumulator built so far. -/
inductive ExecCall where
  | run (q : Query)
  | loop (q : Query) (report : Report) (enough : Bool)

/-- Fueled small-step driver for `CoreQuery.execute`: serialize, fetch the
first page, build the accumulator, then loop — each iteration derives
`self.next()`, executes it recursively, appends its first raw page, and
recomputes `is_enough`.  `none` means the fuel ran out before the source
recursion finished. -/
def execGo : Nat → Store → Transport → ExecCall → Option (Except Err (Store × Report))
  | 0, _, _, _ => none
  | fuel + 1, s, t, ExecCall.run q =>
      match serializeReq s q with
      | Except.error e => some (Except.error e)
      | Except.ok req =>
          let page := t req
          let report := Report.init page q
          execGo fuel s t (ExecCall.loop q report (initialEnough q))
  | fuel + 1, s, t, ExecCall.loop q report enough =>
      if enough || report.is_complete then some (Except.ok (s, report))
      else
        match Query.next s q none with
        | Except.error e => some (Except.error e)
        | Except.ok (s1, nq) =>
            match execGo fuel s1 t (ExecCall.run nq) with
            | none => none
            | some (Except.error e) => some (Except.error e)
            | some (Except.ok (s2, nr)) =>
                let report1 := Report.append report nr.raw nq
                execGo fuel s2 t (ExecCall.loop q report1 (loopEnough q report1))

/-- `CoreQuery.execute` with explicit fuel. -/
def Query.execute (fuel : Nat) (s : Store) (q : Query) (t : Transport) :
    Option (Except Err (Store × Report)) :=
  execGo fuel s t (ExecCall.run q)

/-- A query object as Python sees it: the query value plus the optional
`report` attribute (`hasattr(self, 'report')`); no code in the source ever
assigns that attribute. -/
structure QueryObj where
  q : Query
  report : Option Report

/-- `CoreQuery.__len__`: when the `report` attribute is absent, call
`self.execute()` (whose result is not assigned anywhere) and then read
`self.report` — which is still absent, so Python raises an AttributeError. -/
def QueryObj.lenF (fuel : Nat) (s : Store) (t : Transport) (qo : QueryObj) :
    Option (Except Err Nat) :=
  match qo.report with
  | some r => some (Except.ok (Report.length r))
  | none =>
      match Query.execute fuel s qo.q t with
      | none => none
      | some (Except.error e) => some (Except.error e)
      | some (Except.ok _) =>
          match qo.report with
          | some r => some (Except.ok (Report.length r))
          | none => some (Except.error (Err.attributeError "report"))

/-- `CoreQuery.__iter__`: same lazy pattern as `__len__`, delegating to
`self.report.__iter__()` afterwards. -/
def QueryObj.iterF (fuel : Nat) (s : Store) (t : Transport) (qo : QueryObj) :
    Option (Except Err Unit) :=
  match qo.report with
  | some r => some (Report.iter r)
  | none =>
      match Query.execute fuel s qo.q t with
      | none => none
      | some (Except.error e) => some (Except.error e)
      | some (Except.ok _) =>
          match qo.report with
          | some r => some (Report.iter r)
          | none => some (Except.error (Err.attributeError "report"))

/-- The dereferenced view of a raw-dictionary value: list references are
replaced by the list contents they point at. -/
inductive RView where
  | vs (v : String)
  | vn (v : Nat)
  | vl (v : List String)
deriving DecidableEq

/-- Dereference one raw value against a store. -/
def rviewOf (s : Store) : RVal → RView
  | RVal.s v => RView.vs v
  | RVal.n v => RView.vn v
  | RVal.r a => RView.vl (Store.get s a)

/-- The observable content of a raw parameter dictionary: every entry with its
list references dereferenced.  This is what Python structural equality of
`q.raw` compares. -/
def rawView (s : Store) (d : Dict) : List (String × RView) :=
  d.map (fun p => (p.1, rviewOf s p.2))

/-- A chain operation on a query, as listed by the spec. -/
inductive Op where
  | specify (metrics dimensions : List ColIn)
  | range (start : String) (stop : Option String) (months days : Nat)
      (precision : PrecArg) (granularity : Option GranArg)
  | step (maximum : Nat)
  | limit (args : List Nat)
  | next (start : Option Nat)
  | clone
  | sort
  | filter

/-- Apply one chain operation. -/
def applyOp (s : Store) (q : Query) : Op → Except Err (Store × Query)
  | Op.specify ms ds => Query.specify s q ms ds
  | Op.range a b mo dy p g => Query.range s q a b mo dy p g
  | Op.step m => Query.step s q m
  | Op.limit args => Query.limit s q args
  | Op.next st => Query.next s q st
  | Op.clone => Except.ok (Query.clone s q)
  | Op.sort => Query.sort s q
  | Op.filter => Query.filter s q

/-- Run a sequence of chain operations. -/
def chainRun (s : Store) (q : Query) : List Op → Except Err (Store × Query)
  | [] => Except.ok (s, q)
  | op :: ops => do
      let p ← applyOp s q op
      chainRun p.1 p.2 ops

/-! Concrete scenario data used by the claim theorems and witnesses. -/

/-- A profile whose account catalog knows the date and sessions columns (in
catalog order: date first). -/
def profile0 : Profile := { id := "12345", columns := ["ga:date", "ga:sessions"] }

/-- The store produced by constructing `query0` from an empty store. -/
def store0 : Store := ⟨[["ga:sessions"], ["ga:date"]]⟩

/-- The query produced by
`Query(profile0, metrics=['ga:sessions'], dimensions=['ga:date'])`. -/
def query0 : Query :=
  { profile := profile0,
    raw := [("ids", RVal.s "ga:12345"), ("metrics", RVal.r 0), ("dimensions", RVal.r 1)],
    meta := [] }

/-- Page 1 of the pagination scenario: one row and a continuation cursor. -/
def page1 : Page :=
  { columnHeaders := ["ga:date", "ga:sessions"],
    rows := [["20230101", "10"]],
    nextLink := true }

/-- Page 2 of the pagination scenario: one row, no continuation cursor. -/
def page2 : Page :=
  { columnHeaders := ["ga:date", "ga:sessions"],
    rows := [["20230102", "20"]],
    nextLink := false }

/-- The two-page transport of the concrete pagination-merge scenario: the
request without a start index yields page 1; the follow-up request at start
index 1001 yields page 2. -/
def transport2 : Transport := fun req =>
  match aget req "start_index" with
  | some (RVal.n 1001) => page2
  | _ => page1

/-- The query derived from `query0` by `next()`: the start index is
`max_results` (absent, so 1000) plus one. -/
def nextQuery0 : Query :=
  { query0 with raw := query0.raw ++ [("start_index", RVal.n 1001)] }

/-- The store after one `next()` clone starting from `store0`. -/
def store0x : Store := ⟨[["ga:sessions"], ["ga:date"], [], []]⟩

/-- The accumulator produced by executing `query0` against `transport2`. -/
def report2 : Report :=
  { raw := page1,
    queries := [query0, nextQuery0],
    headers := ["ga:date", "ga:sessions"],
    rows := [["20230101", "10"], ["20230102", "20"]],
    is_complete := true }

/-- The store after the receiver-mutating `specify` call of the immutability
scenario: the shared metrics list (address 0) now also holds the new metric. -/
def store1 : Store := ⟨[["ga:sessions", "ga:pageviews"], ["ga:date"], [], []]⟩

/-- A three-page dataset: the first request (no start index) and the follow-up
at start index 1001 both carry a continuation cursor; any other start index
(in particular 2001, which is never requested) returns the final, complete
page.  The dataset is finite: three pages, three rows. -/
def transport3 : Transport := fun req =>
  match aget req "start_index" with
  | some (RVal.n 1001) =>
      { columnHeaders := ["ga:date", "ga:sessions"],
        rows := [["20230102", "20"]], nextLink := true }
  | none => page1
  | _ =>
      { columnHeaders := ["ga:date", "ga:sessions"],
        rows := [["20230103", "30"]], nextLink := false }

/-- The query after `query0.limit(500)`. -/
def queryL1 : Query :=
  { profile := profile0,
    raw := [("ids", RVal.s "ga:12345"), ("metrics", RVal.r 0), ("dimensions", RVal.r 1),
            ("start_index", RVal.n 1), ("max_results", RVal.n 500)],
    meta := [("limit", 500)] }

/-- The store after `query0.limit(500)` starting from `store0`. -/
def storeL1 : Store := ⟨[["ga:sessions"], ["ga:date"], [], []]⟩

/-- The query after `query0.limit(500).step(10)`. -/
def queryL : Query :=
  { profile := profile0,
    raw := [("ids", RVal.s "ga:12345"), ("metrics", RVal.r 0), ("dimensions", RVal.r 1),
            ("start_index", RVal.n 1), ("max_results", RVal.n 10)],
    meta := [("limit", 500)] }

/-- The store after `query0.limit(500).step(10)` starting from `store0`. -/
def storeL : Store := ⟨[["ga:sessions"], ["ga:date"], [], [], [], []]⟩

/-- The first page of the limit-short-circuit scenario: ten rows and a
continuation cursor. -/
def pageL : Page :=
  { columnHeaders := ["ga:date", "ga:sessions"],
    rows := List.replicate 10 ["20230101", "1"],
    nextLink := true }

/-- The transport of the limit-short-circuit scenario: the request at start
index 1 yields the incomplete ten-row page; any follow-up would be complete. -/
def transportL : Transport := fun req =>
  match aget req "start_index" with
  | some (RVal.n 1) => pageL
  | _ => { columnHeaders := ["ga:date", "ga:sessions"], rows := [], nextLink := false }

/-- The accumulator `execute` returns in the limit-short-circuit scenario:
only the first page was ingested. -/
def reportL : Report :=
  { raw := pageL,
    queries := [queryL],
    headers := ["ga:date", "ga:sessions"],
    rows := pageL.rows,
    is_complete := false }

/-- The invariant carried through the divergence proof of the pagination
driver on `transport3`: the raw dictionary holds list references for metrics
and dimensions, no page-size override, no row limit, and a start index that is
either absent (first request) or the constant follow-up index 1001. -/
def c2good (q : Query) : Prop :=
  (∃ a, aget q.raw "metrics" = some (RVal.r a)) ∧
  (∃ b, aget q.raw "dimensions" = some (RVal.r b)) ∧
  aget q.raw "max_results" = none ∧
  aget q.meta "limit" = none ∧
  (aget q.raw "start_index" = none ∨ aget q.raw "start_index" = some (RVal.n 1001))

/-- Store extension: the primed store is the original plus freshly allocated
empty lists (the only store effect of the clones made inside `execute`). -/
def storeExtends (s s2 : Store) : Prop :=
  ∃ m, s2.lists = s.lists ++ List.replicate m ([] : List String)

/-- The key set every constructed query keeps in its raw dictionary. -/
def hasBaseKeys (q : Query) : Prop :=
  "ids" ∈ akeys q.raw ∧ "metrics" ∈ akeys q.raw ∧ "dimensions" ∈ akeys q.raw

/-- The ops of the chain-invariant witness; `limit(1, 2, 3)` exercises the
more-than-two-argument branch of `limit`, which succeeds with `start = 1` and
`maximum = _range[0]`. -/
def ops9 : List Op := [Op.step 100, Op.sort, Op.limit [1, 2, 3]]

/-- The query after `query0.step(100).sort().limit(1, 2, 3)`: the limit call
replaces `max_results` in place and appends `start_index`. -/
def query9 : Query :=
  { query0 with
    raw := query0.raw ++ [("max_results", RVal.n 1), ("start_index", RVal.n 1)],
    meta := [("limit", 1)] }

/-- The store after `query0.step(100).sort().limit(1, 2, 3)` starting from
`store0`: three clones, each allocating two fresh empty lists. -/
def store9 : Store := ⟨[["ga:sessions"], ["ga:date"], [], [], [], [], [], []]⟩

/-! Dictionary, store and clone lemmas shared by the claim proofs. -/

theorem aget_aset_self {β : Type} (d : PyDict β) (k : String) (v : β) :
    aget (aset d k v) k = some v := by
  induction d with
  | nil => simp [aset, aget]
  | cons p rest ih =>
      obtain ⟨k2, v2⟩ := p
      by_cases h : k2 = k
      · subst h; simp [aset, aget]
      · simp [aset, aget, beq_iff_eq, h, ih]

theorem aget_aset_ne {β : Type} (d : PyDict β) (k k2 : String) (v : β) (h : k ≠ k2) :
    aget (aset d k v) k2 = aget d k2 := by
  induction d with
  | nil => simp [aset, aget, beq_iff_eq, h]
  | cons p rest ih =>
      obtain ⟨k3, v3⟩ := p
      by_cases h3 : k3 = k
      · subst h3; simp [aset, aget, beq_iff_eq, h]
      · simp [aset, aget, beq_iff_eq, h3, ih]

theorem getD_append_len {α : Type} (l : List α) (x d : α) :
    (l ++ [x]).getD l.length d = x := by
  induction l with
  | nil => rfl
  | cons a l ih => simp [ih]

theorem set_append_len {α : Type} (l : List α) (x y : α) :
    (l ++ [x]).set l.length y = l ++ [y] := by
  induction l with
  | nil => rfl
  | cons a l ih =>
      show a :: (l ++ [x]).set l.length y = a :: (l ++ [y])
      rw [ih]

theorem getElem_append_two_len {α : Type} (l : List α) (x y : α)
    (h : l.length + 1 < (l ++ [x, y]).length) :
    (l ++ [x, y])[l.length + 1] = y := by
  induction l with
  | nil => rfl
  | cons a l ih =>
      have hb : l.length + 1 < (l ++ [x, y]).length := by simp
      simpa using ih hb

theorem set_append_two_len {α : Type} (l : List α) (x y z : α) :
    (l ++ [x, y]).set (l.length + 1) z = l ++ [x, z] := by
  induction l with
  | nil => rfl
  | cons a l ih =>
      show a :: (l ++ [x, y]).set (l.length + 1) z = a :: (l ++ [x, z])
      rw [ih]

/-- `clone` allocates two fresh empty lists (discarded immediately when the raw
dictionary is overwritten with the shallow copy) and returns a value equal to
the receiver, whose raw dictionary shares the list addresses. -/
theorem clone_eq (s : Store) (q : Query) :
    Query.clone s q = (⟨s.lists ++ [[], []]⟩, q) := by
  simp [Query.clone, specExtend, setdefaultRef, Store.alloc, Store.get, Store.set,
    aget, aset, getD_append_len, set_append_len, getElem_append_two_len, set_append_two_len]

theorem next_none_eq (s : Store) (q : Query) (h : aget q.raw "max_results" = none) :
    Query.next s q none =
      Except.ok (⟨s.lists ++ [[], []]⟩,
        { q with raw := aset q.raw "start_index" (RVal.n 1001) }) := by
  simp [Query.next, immutable, clone_eq, h]

theorem serializeReq_eq (s : Store) (q : Query) (a b : Nat)
    (ha : aget q.raw "metrics" = some (RVal.r a))
    (hb : aget q.raw "dimensions" = some (RVal.r b)) :
    serializeReq s q = Except.ok
      (aset (aset q.raw "metrics" (RVal.s (String.intercalate "," (Store.get s a))))
        "dimensions" (RVal.s (String.intercalate "," (Store.get s b)))) := by
  unfold serializeReq derefList
  rw [ha, hb]
  rfl

theorem c2good_next (q : Query) (hg : c2good q) :
    c2good { q with raw := aset q.raw "start_index" (RVal.n 1001) } := by
  obtain ⟨⟨a, ha⟩, ⟨b, hb⟩, hm, hl, _⟩ := hg
  refine ⟨⟨a, ?_⟩, ⟨b, ?_⟩, ?_, hl, Or.inr ?_⟩
  · rw [aget_aset_ne _ _ _ _ (by decide)]; exact ha
  · rw [aget_aset_ne _ _ _ _ (by decide)]; exact hb
  · rw [aget_aset_ne _ _ _ _ (by decide)]; exact hm
  · exact aget_aset_self _ _ _

theorem transport3_carries_cursor (s : Store) (q : Query) (a b : Nat)
    (ha : aget q.raw "metrics" = some (RVal.r a))
    (hb : aget q.raw "dimensions" = some (RVal.r b))
    (hs : aget q.raw "start_index" = none ∨
      aget q.raw "start_index" = some (RVal.n 1001)) :
    ∀ req, serializeReq s q = Except.ok req → (transport3 req).nextLink = true := by
  intro req hreq
  rw [serializeReq_eq s q a b ha hb] at hreq
  cases hreq
  have hsi : aget (aset (aset q.raw "metrics"
      (RVal.s (String.intercalate "," (Store.get s a))))
      "dimensions" (RVal.s (String.intercalate "," (Store.get s b)))) "start_index" =
      aget q.raw "start_index" := by
    rw [aget_aset_ne _ _ _ _ (by decide), aget_aset_ne _ _ _ _ (by decide)]
  rcases hs with hs | hs <;> simp [transport3, hsi, hs, page1]

/-- Under the `c2good` invariant every request sent to `transport3` comes back
with a continuation cursor, the row limit is never set, and `next()` always
reproduces start index 1001, so the driver consumes all fuel at every depth. -/
theorem c2_aux (fuel : Nat) :
    (∀ s q, c2good q → execGo fuel s transport3 (ExecCall.run q) = none) ∧
    (∀ s q rep, c2good q → rep.is_complete = false →
      execGo fuel s transport3 (ExecCall.loop q rep false) = none) := by
  induction fuel with
  | zero => exact ⟨fun _ _ _ => rfl, fun _ _ _ _ _ => rfl⟩
  | succ f ih =>
      constructor
      · intro s q hg
        obtain ⟨⟨a, ha⟩, ⟨b, hb⟩, hm, hl, hs⟩ := hg
        have hser := serializeReq_eq s q a b ha hb
        have hcur := transport3_carries_cursor s q a b ha hb hs _ hser
        simp only [execGo, hser]
        have hcomp : (Report.init (transport3
            (aset (aset q.raw "metrics" (RVal.s (String.intercalate "," (Store.get s a))))
              "dimensions" (RVal.s (String.intercalate "," (Store.get s b))))) q).is_complete
            = false := by
          simp [Report.init, Report.append, hcur]
        have hie : initialEnough q = false := by simp [initialEnough, hl]
        rw [hie]
        exact ih.2 s q _ ⟨⟨a, ha⟩, ⟨b, hb⟩, hm, hl, hs⟩ hcomp
      · intro s q rep hg hc
        have hm := hg.2.2.1
        simp only [execGo, hc, Bool.false_or, if_neg (by simp : ¬False)]
        rw [next_none_eq s q hm]
        have hrun := ih.1 ⟨s.lists ++ [[], []]⟩
          { q with raw := aset q.raw "start_index" (RVal.n 1001) } (c2good_next q hg)
        simp [hrun]

theorem listIndex_eq_none (l : List String) (key : String) (h : key ∉ l) :
    listIndex l key = none := by
  induction l with
  | nil => rfl
  | cons a rest ih =>
      simp only [List.mem_cons, not_or] at h
      simp [listIndex, beq_iff_eq, Ne.symm h.1, ih h.2]

theorem storeExtends_refl (s : Store) : storeExtends s s := ⟨0, by simp⟩

theorem storeExtends_trans (s1 s2 s3 : Store) (h : storeExtends s1 s2)
    (h2 : storeExtends s2 s3) : storeExtends s1 s3 := by
  obtain ⟨m, hm⟩ := h
  obtain ⟨n, hn⟩ := h2
  exact ⟨m + n, by rw [hn, hm, List.append_assoc, List.replicate_add]⟩

theorem storeExtends_clone (s : Store) : storeExtends s ⟨s.lists ++ [[], []]⟩ :=
  ⟨2, rfl⟩

theorem next_shape (s : Store) (q : Query) (st : Option Nat) :
    ∃ n, Query.next s q st = Except.ok (⟨s.lists ++ [[], []]⟩,
      { q with raw := aset q.raw "start_index" (RVal.n n) }) := by
  unfold Query.next immutable
  rw [clone_eq]
  exact ⟨_, rfl⟩

/-- The only store effect of the pagination driver is the allocation of fresh
empty lists by the clones made inside `next()`. -/
theorem execGo_storeExtends (fuel : Nat) :
    ∀ s t c s2 r, execGo fuel s t c = some (Except.ok (s2, r)) → storeExtends s s2 := by
  induction fuel with
  | zero => intro s t c s2 r h; simp [execGo] at h
  | succ f ih =>
      intro s t c s2 r h
      cases c with
      | run q =>
          simp only [execGo] at h
          cases hser : serializeReq s q with
          | error e => rw [hser] at h; simp at h
          | ok req => rw [hser] at h; exact ih s t _ s2 r h
      | loop q rep enough =>
          simp only [execGo] at h
          by_cases he : (enough || rep.is_complete) = true
          · rw [if_pos he] at h
            simp only [Option.some.injEq, Except.ok.injEq, Prod.mk.injEq] at h
            obtain ⟨h1, _⟩ := h
            rw [← h1]
            exact storeExtends_refl s
          · rw [if_neg he] at h
            split at h
            · simp at h
            · rename_i s1 nq heq
              split at h
              · simp at h
              · simp at h
              · rename_i s3 nr heq2
                obtain ⟨n, hnext⟩ := next_shape s q none
                rw [hnext] at heq
                simp only [Except.ok.injEq, Prod.mk.injEq] at heq
                obtain ⟨hs1, _⟩ := heq
                have e1 : storeExtends s s1 := by rw [← hs1]; exact storeExtends_clone s
                have e2 := ih s1 t _ s3 nr heq2
                have e3 := ih s3 t _ s2 r h
                exact storeExtends_trans _ _ _ (storeExtends_trans _ _ _ e1 e2) e3

theorem getD_replicate_nil (m a : Nat) :
    (List.replicate m ([] : List String)).getD a [] = [] := by
  induction m generalizing a with
  | zero => cases a <;> rfl
  | succ m ih => cases a with
    | zero => rfl
    | succ a => exact ih a

theorem getD_append_replicate_nil (l : List (List String)) (m a : Nat) :
    (l ++ List.replicate m ([] : List String)).getD a [] = l.getD a [] := by
  induction l generalizing a with
  | nil =>
      have h0 : (([] : List (List String)).getD a []) = [] := by cases a <;> rfl
      rw [List.nil_append, h0, getD_replicate_nil]
  | cons x l ih =>
      cases a with
      | zero => rfl
      | succ a => exact ih a

theorem rviewOf_storeExtends (s s2 : Store) (h : storeExtends s s2) (v : RVal) :
    rviewOf s2 v = rviewOf s v := by
  obtain ⟨m, hm⟩ := h
  cases v with
  | s v => rfl
  | n v => rfl
  | r a =>
      show RView.vl (Store.get s2 a) = RView.vl (Store.get s a)
      unfold Store.get
      rw [hm, getD_append_replicate_nil]

theorem rawView_storeExtends (s s2 : Store) (h : storeExtends s s2) (d : Dict) :
    rawView s2 d = rawView s d := by
  unfold rawView
  simp [rviewOf_storeExtends s s2 h]

theorem except_bind_ok {ε α β : Type} (a : α) (f : α → Except ε β) :
    (Except.ok a >>= f) = f a := rfl

theorem except_bind_error {ε α β : Type} (e : ε) (f : α → Except ε β) :
    (Except.error e >>= f : Except ε β) = Except.error e := rfl

theorem aget_mem_akeys {β : Type} (d : PyDict β) (k : String) (v : β)
    (h : aget d k = some v) : k ∈ akeys d := by
  induction d with
  | nil => simp [aget] at h
  | cons p rest ih =>
      obtain ⟨k3, v3⟩ := p
      by_cases h3 : k3 = k
      · subst h3; simp [akeys]
      · simp only [aget, beq_iff_eq, h3, if_false] at h
        exact List.mem_cons_of_mem _ (ih h)

theorem akeys_aset {β : Type} (d : PyDict β) (k : String) (v : β) :
    akeys (aset d k v) = akeys d ∨ akeys (aset d k v) = akeys d ++ [k] := by
  induction d with
  | nil => right; rfl
  | cons p rest ih =>
      obtain ⟨k3, v3⟩ := p
      by_cases h3 : k3 = k
      · subst h3; left; simp [aset, akeys]
      · have hs : aset ((k3, v3) :: rest) k v = (k3, v3) :: aset rest k v := by
          simp [aset, beq_iff_eq, h3]
        rcases ih with ih | ih
        · left
          rw [hs]
          show k3 :: akeys (aset rest k v) = k3 :: akeys rest
          rw [ih]
        · right
          rw [hs]
          show k3 :: akeys (aset rest k v) = akeys ((k3, v3) :: rest) ++ [k]
          rw [ih]
          rfl

theorem mem_akeys_aset {β : Type} (d : PyDict β) (k k2 : String) (v : β)
    (h : k2 ∈ akeys d) : k2 ∈ akeys (aset d k v) := by
  rcases akeys_aset d k v with he | he <;> rw [he] <;> simp [h]

theorem mem_akeys_aset_self {β : Type} (d : PyDict β) (k : String) (v : β) :
    k ∈ akeys (aset d k v) := by
  induction d with
  | nil => simp [aset, akeys]
  | cons p rest ih =>
      obtain ⟨k3, v3⟩ := p
      by_cases h3 : k3 = k
      · subst h3; simp [aset, akeys]
      · simp [aset, beq_iff_eq, h3, akeys]
        exact Or.inr (by simpa [akeys] using ih)

theorem mem_akeys_aupdate {β : Type} (kvs : List (String × β)) (d : PyDict β) (k2 : String)
    (h : k2 ∈ akeys d) : k2 ∈ akeys (aupdate d kvs) := by
  induction kvs generalizing d with
  | nil => exact h
  | cons p rest ih => exact ih (aset d p.1 p.2) (mem_akeys_aset _ _ _ _ h)

theorem setdefaultRef_dict_mem (s : Store) (d : Dict) (k k2 : String) (h : k2 ∈ akeys d) :
    k2 ∈ akeys (setdefaultRef s d k).2.1 := by
  unfold setdefaultRef
  cases hg : aget d k with
  | none => exact mem_akeys_aset _ _ _ _ h
  | some v => cases v <;> exact h

theorem setdefaultRef_dict_mem_self (s : Store) (d : Dict) (k : String) :
    k ∈ akeys (setdefaultRef s d k).2.1 := by
  unfold setdefaultRef
  cases hg : aget d k with
  | none => exact mem_akeys_aset_self _ _ _
  | some v => cases v <;> exact aget_mem_akeys d k _ hg

theorem specExtend_mem (s : Store) (q : Query) (ms ds : List String) (k : String)
    (h : k ∈ akeys q.raw) : k ∈ akeys (specExtend s q ms ds).2.raw :=
  setdefaultRef_dict_mem _ _ _ _ (setdefaultRef_dict_mem _ _ _ _ h)

theorem specExtend_mem_metrics (s : Store) (q : Query) (ms ds : List String) :
    "metrics" ∈ akeys (specExtend s q ms ds).2.raw :=
  setdefaultRef_dict_mem _ _ _ _ (setdefaultRef_dict_mem_self _ _ _)

theorem specExtend_mem_dimensions (s : Store) (q : Query) (ms ds : List String) :
    "dimensions" ∈ akeys (specExtend s q ms ds).2.raw :=
  setdefaultRef_dict_mem_self _ _ _

theorem specExtend_baseKeys (s : Store) (q : Query) (ms ds : List String)
    (h : "ids" ∈ akeys q.raw) : hasBaseKeys (specExtend s q ms ds).2 :=
  ⟨specExtend_mem s q ms ds "ids" h,
   specExtend_mem_metrics s q ms ds,
   specExtend_mem_dimensions s q ms ds⟩

theorem _specify_keys (s : Store) (q : Query) (ms ds : List ColIn) (s2 : Store) (q2 : Query)
    (h : _specify s q ms ds = Except.ok (s2, q2)) (hq : "ids" ∈ akeys q.raw) :
    hasBaseKeys q2 := by
  unfold _specify at h
  cases hm : _serialize_columns q.profile ms with
  | error e => rw [hm, except_bind_error] at h; exact Except.noConfusion h
  | ok msv =>
      rw [hm, except_bind_ok] at h
      cases hd : _serialize_columns q.profile ds with
      | error e => rw [hd, except_bind_error] at h; exact Except.noConfusion h
      | ok dsv =>
          rw [hd, except_bind_ok] at h
          simp only [Except.ok.injEq] at h
          have h2 : q2 = (specExtend s q msv dsv).2 := by rw [h]
          rw [h2]
          exact specExtend_baseKeys s q msv dsv hq

theorem specify_keys (s : Store) (q : Query) (ms ds : List ColIn) (s2 : Store) (q2 : Query)
    (h : Query.specify s q ms ds = Except.ok (s2, q2)) (hq : hasBaseKeys q) :
    hasBaseKeys q2 := by
  simp only [Query.specify, immutable, clone_eq] at h
  exact _specify_keys _ _ _ _ _ _ h hq.1

theorem sort_keys (s : Store) (q : Query) (s2 : Store) (q2 : Query)
    (h : Query.sort s q = Except.ok (s2, q2)) (hq : hasBaseKeys q) : hasBaseKeys q2 := by
  simp only [Query.sort, immutable, clone_eq, Except.ok.injEq, Prod.mk.injEq] at h
  rw [← h.2]; exact hq

theorem filter_keys (s : Store) (q : Query) (s2 : Store) (q2 : Query)
    (h : Query.filter s q = Except.ok (s2, q2)) (hq : hasBaseKeys q) : hasBaseKeys q2 := by
  simp only [Query.filter, immutable, clone_eq, Except.ok.injEq, Prod.mk.injEq] at h
  rw [← h.2]; exact hq

theorem clone_keys (s : Store) (q : Query) (s2 : Store) (q2 : Query)
    (h : Query.clone s q = (s2, q2)) (hq : hasBaseKeys q) : hasBaseKeys q2 := by
  rw [clone_eq] at h
  simp only [Prod.mk.injEq] at h
  rw [← h.2]; exact hq

theorem step_keys (s : Store) (q : Query) (m : Nat) (s2 : Store) (q2 : Query)
    (h : Query.step s q m = Except.ok (s2, q2)) (hq : hasBaseKeys q) : hasBaseKeys q2 := by
  obtain ⟨h1, h2, h3⟩ := hq
  simp only [Query.step, immutable, clone_eq, Except.ok.injEq, Prod.mk.injEq] at h
  rw [← h.2]
  exact ⟨mem_akeys_aset _ _ _ _ h1, mem_akeys_aset _ _ _ _ h2, mem_akeys_aset _ _ _ _ h3⟩

theorem next_keys (s : Store) (q : Query) (st : Option Nat) (s2 : Store) (q2 : Query)
    (h : Query.next s q st = Except.ok (s2, q2)) (hq : hasBaseKeys q) : hasBaseKeys q2 := by
  obtain ⟨h1, h2, h3⟩ := hq
  obtain ⟨n, hn⟩ := next_shape s q st
  rw [hn] at h
  simp only [Except.ok.injEq, Prod.mk.injEq] at h
  rw [← h.2]
  exact ⟨mem_akeys_aset _ _ _ _ h1, mem_akeys_aset _ _ _ _ h2, mem_akeys_aset _ _ _ _ h3⟩

theorem limit_keys (s : Store) (q : Query) (args : List Nat) (s2 : Store) (q2 : Query)
    (h : Query.limit s q args = Except.ok (s2, q2)) (hq : hasBaseKeys q) : hasBaseKeys q2 := by
  obtain ⟨h1, h2, h3⟩ := hq
  simp only [Query.limit, immutable, clone_eq] at h
  split at h
  all_goals first
  | exact Except.noConfusion h
  | (simp only [Except.ok.injEq, Prod.mk.injEq] at h
     rw [← h.2]
     exact ⟨mem_akeys_aupdate _ _ _ h1, mem_akeys_aupdate _ _ _ h2,
       mem_akeys_aupdate _ _ _ h3⟩)

theorem range_keys (s : Store) (q : Query) (start : String) (stop : Option String)
    (months days : Nat) (p : PrecArg) (g : Option GranArg) (s2 : Store) (q2 : Query)
    (h : Query.range s q start stop months days p g = Except.ok (s2, q2))
    (hq : hasBaseKeys q) : hasBaseKeys q2 := by
  obtain ⟨h1, h2, h3⟩ := hq
  have keyres : ∀ tk : String, hasBaseKeys { q with
      raw := aset (aupdate q.raw
        [("start_date", RVal.s (daterange start stop months days).1),
         ("end_date", RVal.s (daterange start stop months days).2)])
        "samplingLevel" (RVal.s tk) } :=
    fun tk => ⟨mem_akeys_aset _ _ _ _ (mem_akeys_aupdate _ _ _ h1),
      mem_akeys_aset _ _ _ _ (mem_akeys_aupdate _ _ _ h2),
      mem_akeys_aset _ _ _ _ (mem_akeys_aupdate _ _ _ h3)⟩
  simp only [Query.range, immutable, clone_eq, pyTupleGet] at h
  repeat'
    first
    | (simp only [except_bind_ok, except_bind_error] at h)
    | split at h
  all_goals first
  | exact Except.noConfusion h
  | (simp only [Except.ok.injEq, Prod.mk.injEq] at h
     rw [← h.2]
     exact keyres _)

theorem applyOp_keys (s : Store) (q : Query) (op : Op) (s2 : Store) (q2 : Query)
    (h : applyOp s q op = Except.ok (s2, q2)) (hq : hasBaseKeys q) : hasBaseKeys q2 := by
  cases op with
  | specify ms ds => exact specify_keys s q ms ds s2 q2 h hq
  | range a b mo dy p g => exact range_keys s q a b mo dy p g s2 q2 h hq
  | step m => exact step_keys s q m s2 q2 h hq
  | limit args => exact limit_keys s q args s2 q2 h hq
  | next st => exact next_keys s q st s2 q2 h hq
  | clone =>
      simp only [applyOp, Except.ok.injEq] at h
      exact clone_keys s q s2 q2 h hq
  | sort => exact sort_keys s q s2 q2 h hq
  | filter => exact filter_keys s q s2 q2 h hq

theorem init_keys (s : Store) (p : Profile) (ms ds : List ColIn) (meta : Meta)
    (s1 : Store) (q1 : Query) (h : Query.init s p ms ds meta = Except.ok (s1, q1)) :
    hasBaseKeys q1 := by
  unfold Query.init at h
  exact _specify_keys _ _ _ _ _ _ h (by simp [akeys])

theorem chainRun_keys (ops : List Op) :
    ∀ s q s2 q2, chainRun s q ops = Except.ok (s2, q2) → hasBaseKeys q → hasBaseKeys q2 := by
  induction ops with
  | nil =>
      intro s q s2 q2 h hq
      simp only [chainRun, Except.ok.injEq, Prod.mk.injEq] at h
      rw [← h.2]; exact hq
  | cons op rest ih =>
      intro s q s2 q2 h hq
      unfold chainRun at h
      cases ha : applyOp s q op with
      | error e => rw [ha, except_bind_error] at h; exact Except.noConfusion h
      | ok p1 =>
          rw [ha, except_bind_ok] at h
          exact ih p1.1 p1.2 s2 q2 h (applyOp_keys s q op p1.1 p1.2 (by rw [ha]) hq)

/-! The claim theorems. -/

/-- Claim C1: the claim states that every chain operation leaves the receiver
structurally unchanged.  The code violates it: `clone` copies the raw
dictionary shallowly, so the clone shares the metric and dimension list
objects, and `specify` extends them in place — after
`q.specify(metrics=['ga:pageviews'])` the receiver observable raw content has
changed, its metrics list now being `['ga:sessions', 'ga:pageviews']`. -/
theorem specify_mutates_receiver :
    Query.init ⟨[]⟩ profile0 [ColIn.name "ga:sessions"] [ColIn.name "ga:date"] [] =
      Except.ok (store0, query0) ∧
    Query.specify store0 query0 [ColIn.handle "ga:pageviews"] [] =
      Except.ok (store1, query0) ∧
    derefList store0 query0.raw "metrics" = Except.ok ["ga:sessions"] ∧
    derefList store1 query0.raw "metrics" = Except.ok ["ga:sessions", "ga:pageviews"] ∧
    rawView store0 query0.raw ≠ rawView store1 query0.raw := by decide

/-- Claim C2: the claim states the pagination loop terminates on every finite
dataset because each follow-up starts past the fetched rows.  The code
violates it: `next()` recomputes the start index as `max_results + 1` (1001
here) at every depth, so the page at start index 1001 is requested again and
again and, on the finite three-page dataset `transport3`, `execute` finds no
result within any amount of fuel. -/
theorem execute_repeats_page_and_diverges :
    Query.init ⟨[]⟩ profile0 [ColIn.name "ga:sessions"] [ColIn.name "ga:date"] [] =
      Except.ok (store0, query0) ∧
    Query.next store0x nextQuery0 none =
      Except.ok (⟨store0x.lists ++ [[], []]⟩, nextQuery0) ∧
    (∀ fuel : Nat, Query.execute fuel store0 query0 transport3 = none) := by
  refine ⟨by decide, by decide, fun fuel => ?_⟩
  exact (c2_aux fuel).1 store0 query0 ⟨⟨0, rfl⟩, ⟨1, rfl⟩, rfl, rfl, Or.inl rfl⟩

/-- Claim C3: the claim states a follow-up page is requested exactly when the
accumulated rows are below `meta.limit` and the last page carried a cursor.
The code violates it: the check made after the first page is
`meta.limit < 1000`, so with `limit(500)` then `step(10)` the executor stops
after an incomplete ten-row first page even though ten rows are far below the
limit of 500 and a continuation cursor was present. -/
theorem limit_short_circuit_divergence :
    Query.limit store0 query0 [500] = Except.ok (storeL1, queryL1) ∧
    Query.step storeL1 queryL1 10 = Except.ok (storeL, queryL) ∧
    Query.execute 10 storeL queryL transportL = some (Except.ok (storeL, reportL)) ∧
    aget queryL.meta "limit" = some 500 ∧
    reportL.rows.length = 10 ∧
    reportL.is_complete = false ∧
    reportL.queries = [queryL] := by decide

/-- Claim C4 counterexample: `range(..., precision=5)` does not fail with a
validation error enumerating the precision tokens; it raises an index error
whose message is `tuple index out of range`. -/
theorem range_precision_index_counterexample :
    Query.range store0 query0 "2023-01-01" none 0 0 (PrecArg.int 5) none =
      Except.error (Err.indexError "tuple index out of range") ∧
    Err.indexError "tuple index out of range" ≠
      Err.valueError "Granularity should be one of: FASTER, DEFAULT, HIGH_PRECISION" := by
  decide

/-- Claim C4 (amended): `range` with the unknown token `'BOGUS'` fails with a
validation error enumerating exactly the three precision tokens, while
`range` with the out-of-range index 5 fails with an index error (`tuple index
out of range`) that does not enumerate them. -/
theorem range_precision_validation (s : Store) (q : Query) (start : String)
    (stop : Option String) (months days : Nat) :
    Query.range s q start stop months days (PrecArg.str "BOGUS") none =
      Except.error (Err.valueError
        "Granularity should be one of: FASTER, DEFAULT, HIGH_PRECISION") ∧
    Query.range s q start stop months days (PrecArg.int 5) none =
      Except.error (Err.indexError "tuple index out of range") := by
  constructor <;> rfl

/-- Claim C5: the claim states that `len`/`iter` trigger execution once and
cache the report.  The code violates it: `execute()` never assigns
`self.report`, so both accessors perform the fetch, then fail with an
AttributeError when reading the still-missing `report` attribute (and a repeat
call would fetch again). -/
theorem len_iter_missing_report_attribute :
    QueryObj.lenF 10 store0 transport2 { q := query0, report := none } =
      some (Except.error (Err.attributeError "report")) ∧
    QueryObj.iterF 10 store0 transport2 { q := query0, report := none } =
      some (Except.error (Err.attributeError "report")) := by decide

/-- Claim C6: the concrete two-page merge scenario — page 1 with one row and a
cursor, page 2 fetched via `next()` at start index 1001 with one row and no
cursor — yields an accumulator with both rows in order, completeness set, and
column access `report['ga:sessions'] == ['10', '20']`. -/
theorem pagination_merge_scenario :
    Query.execute 10 store0 query0 transport2 = some (Except.ok (store0x, report2)) ∧
    report2.rows = [["20230101", "10"], ["20230102", "20"]] ∧
    report2.is_complete = true ∧
    Report.getitem report2 "ga:sessions" = Except.ok ["10", "20"] ∧
    report2.queries = [query0, nextQuery0] ∧
    aget nextQuery0.raw "start_index" = some (RVal.n 1001) := by decide

/-- Claim C7: the claim states an invalid granularity token fails with a
validation error listing the valid granularity levels.  The code violates it:
the message is built from `options.keys()`, but no name `options` is in
scope, so Python raises a NameError instead. -/
theorem range_granularity_name_error (s : Store) (q : Query) (start : String)
    (stop : Option String) (months days : Nat) :
    Query.range s q start stop months days (PrecArg.int 1)
      (some (GranArg.str "fortnight")) = Except.error (Err.nameError "options") := by
  rfl

/-- Claim C8: column-indexed access with a name absent from the report headers
fails with a `ValueError` whose message names the missing column. -/
theorem getitem_missing_column (r : Report) (key : String) (h : key ∉ r.headers) :
    Report.getitem r key =
      Except.error (Err.valueError (key ++ " not in column headers")) := by
  unfold Report.getitem
  rw [listIndex_eq_none r.headers key h]

/-- Claim C8 witness: `report['ga:bogus']` on the concrete two-page report
fails with the lookup error naming `ga:bogus`. -/
theorem getitem_missing_column_witness :
    "ga:bogus" ∉ report2.headers ∧
    Report.getitem report2 "ga:bogus" =
      Except.error (Err.valueError "ga:bogus not in column headers") :=
  ⟨by decide, getitem_missing_column report2 "ga:bogus" (by decide)⟩

/-- Claim C9: every query reachable by construction followed by any sequence
of chain operations keeps at least the keys `ids`, `metrics` and `dimensions`
in its raw parameter dictionary. -/
theorem raw_keys_invariant (s : Store) (p : Profile) (ms ds : List ColIn) (meta : Meta)
    (s1 : Store) (q1 : Query) (ops : List Op) (s2 : Store) (q2 : Query)
    (hinit : Query.init s p ms ds meta = Except.ok (s1, q1))
    (hchain : chainRun s1 q1 ops = Except.ok (s2, q2)) :
    "ids" ∈ akeys q2.raw ∧ "metrics" ∈ akeys q2.raw ∧ "dimensions" ∈ akeys q2.raw :=
  chainRun_keys ops s1 q1 s2 q2 hchain (init_keys s p ms ds meta s1 q1 hinit)

/-- Claim C9 witness: the invariant evaluated on a concrete construction
followed by `step(100)`, `sort()` and the three-argument call
`limit(1, 2, 3)`. -/
theorem raw_keys_invariant_witness :
    Query.init ⟨[]⟩ profile0 [ColIn.name "ga:sessions"] [ColIn.name "ga:date"] [] =
      Except.ok (store0, query0) ∧
    chainRun store0 query0 ops9 = Except.ok (store9, query9) ∧
    ("ids" ∈ akeys query9.raw ∧ "metrics" ∈ akeys query9.raw ∧
      "dimensions" ∈ akeys query9.raw) :=
  ⟨by decide, by decide,
   raw_keys_invariant ⟨[]⟩ profile0 [ColIn.name "ga:sessions"] [ColIn.name "ga:date"] []
     store0 query0 ops9 store9 query9 (by decide) (by decide)⟩

/-- Claim C10: a completed `execute()` never modifies the observable raw
parameters of the query it ran on: the comma-joining happens on a copy of the
dictionary, and the only store effect of the driver is allocating fresh empty
lists, so the dereferenced view of `q.raw` is unchanged. -/
theorem execute_preserves_raw (fuel : Nat) (s : Store) (q : Query) (t : Transport)
    (s2 : Store) (r : Report)
    (h : Query.execute fuel s q t = some (Except.ok (s2, r))) :
    rawView s2 q.raw = rawView s q.raw :=
  rawView_storeExtends s s2 (execGo_storeExtends fuel s t (ExecCall.run q) s2 r h) q.raw

/-- Claim C10 witness: the preservation theorem applied to the concrete
two-page execution. -/
theorem execute_preserves_raw_witness :
    Query.execute 10 store0 query0 transport2 = some (Except.ok (store0x, report2)) ∧
    rawView store0x query0.raw = rawView store0 query0.raw :=
  ⟨by decide,
   execute_preserves_raw 10 store0 query0 transport2 store0x report2 (by decide)⟩

end GoogleAnalytics
